import Mathlib

/-!
Verification of the loggerkit multi-sink delivery core.

This file gives a shallow embedding, in Lean 4, of the parts of the
HoangAnhNguyen269/loggerkit repository that the checked claims are about:

* the retry wrapper around the Elasticsearch bulk writer and its
  exponential-backoff computation (`provider/zapx/corefactories` elastic
  writer, also present in an older variant as
  `provider/zapx/elasticsearch_writer.go`);
* the Elasticsearch writer's per-write behaviour (closed-guard, JSON parse
  failure, enrichment, bulk-indexer enqueue) and its dead-letter-queue
  (DLQ) appends;
* the DLQ line format produced by `writeToDLQ` via Go's `json.Marshal`;
* `generateIndexName`, the pure index-pattern substitution;
* the core builder / logger constructor (`core_builder.go`,
  `NewWithOptions`) and the `Close`/`With` methods of the zap adapter.

External collaborators (the Go standard library's JSON codec, the bulk
indexer, the clock, the random jitter source) are modelled as explicit
oracle parameters, so every embedded operation is a pure, executable Lean
function of its inputs and those oracles.

Machine reals (`float64`) in the backoff computation are modelled over `ℚ`;
recursion that Go expresses with unbounded loops is expressed structurally
(with an explicit fuel argument instantiated large enough, so that all
definitions evaluate by `decide`/`rfl`).
-/

namespace Loggerkit

/-! ## Backoff computation (`retryableWriter.calculateBackoff`)

Source (`src/unnamed/part_001`, lines 417-431; identically
`src/provider/zapx/elasticsearch_writer.go`, lines 302-316):

    backoff := float64(rw.retryConfig.BackoffMin) * math.Pow(2, float64(attempt))
    if backoff > float64(rw.retryConfig.BackoffMax) { backoff = float64(rw.retryConfig.BackoffMax) }
    jitter := backoff * 0.25 * (rand.Float64()*2 - 1)
    backoff += jitter
    return time.Duration(backoff)

The float64 arithmetic is modelled over `ℚ`; `rand.Float64()` is the
oracle parameter `r ∈ [0,1)`. -/

/-- The capped, un-jittered backoff value: `BackoffMin * 2^attempt`,
capped at `BackoffMax`, exactly as computed by the first two statements of
`calculateBackoff`. -/
def calculateBackoffUnjittered (bmin bmax : ℚ) (attempt : ℕ) : ℚ :=
  let backoff := bmin * 2 ^ attempt
  if backoff > bmax then bmax else backoff

/-- The value returned by `calculateBackoff` (before the final truncation
to integer nanoseconds): the capped backoff plus a jitter of
`backoff * 0.25 * (2r - 1)` where `r` models `rand.Float64()`. -/
def calculateBackoff (bmin bmax r : ℚ) (attempt : ℕ) : ℚ :=
  let backoff := calculateBackoffUnjittered bmin bmax attempt
  let jitter := backoff * (1/4) * (2 * r - 1)
  backoff + jitter

/-! ## Options and the core builder (`core_builder.go`, `NewWithOptions`)

The configuration surface relevant to sink selection
(`options.go`: `Options.Env`, `Options.DisableConsole`, `Options.File`,
`Options.Elastic`, plus the level strings parsed by `parseLevel`). -/

/-- The slice of `logger.Options` that decides which sinks are built. -/
structure OptionsM where
  env : String
  disableConsole : Bool
  hasFile : Bool
  hasElastic : Bool
  level : String
  stacktraceAt : String
deriving DecidableEq, Repr

/-- Zap levels as far as `parseLevel` distinguishes them. -/
inductive LevelM where
  | debug | info | warn | error
deriving DecidableEq, Repr

/-- `parseLevel` from `src/unnamed/part_004`, lines 159-172. -/
def parseLevel (level : String) : Except String LevelM :=
  match level with
  | "debug" => .ok .debug
  | "info" => .ok .info
  | "warn" => .ok .warn
  | "warning" => .ok .warn
  | "error" => .ok .error
  | _ => .error ("unknown level: " ++ level)

/-- The sink cores that `coreBuilder.buildCores` can produce. -/
inductive SinkCore where
  /-- Console core added because `Env == "dev"` (`core_builder.go:24-30`). -/
  | consoleDev
  /-- JSON console core added by the production fallback
  (`core_builder.go:56-59`). -/
  | consoleProdFallback
  /-- Console core added by `NewWithOptions` when `buildCores` returned
  no cores (`src/unnamed/part_004`, lines 82-88). -/
  | consoleAdapterFallback
  /-- File core (`core_builder.go:33-42`). -/
  | file
  /-- Elasticsearch core (`core_builder.go:45-54`). -/
  | elastic
deriving DecidableEq, Repr

/-- `coreBuilder.buildCores` from `src/provider/zapx/core_builder.go`,
lines 19-62.  Console is added iff `Env == "dev"` (the `DisableConsole`
flag is not consulted); file and Elasticsearch cores are added when
configured; if the environment is `"prod"` and no core was added, a JSON
console core is appended.  Sink build failures for the Elasticsearch sink
(client construction, DLQ open) are modelled by the oracle
`esBuildErr`. -/
def buildCores (esBuildErr : Option String) (o : OptionsM) :
    Except String (List SinkCore) :=
  let cores : List SinkCore := if o.env = "dev" then [.consoleDev] else []
  let cores : List SinkCore := if o.hasFile then cores ++ [.file] else cores
  if o.hasElastic ∧ esBuildErr.isSome then
    .error ("failed to build elasticsearch core: " ++ esBuildErr.getD "")
  else
    let cores : List SinkCore := if o.hasElastic then cores ++ [.elastic] else cores
    .ok (if o.env = "prod" ∧ cores = [] then cores ++ [.consoleProdFallback]
         else cores)

/-- The sink outcome of `NewWithOptions` from `src/unnamed/part_004`,
lines 40-124: parse the level and stacktrace level, build the cores, and
if no core was configured fall back to a console core.  The result is the
list of sinks the constructed logger writes to. -/
def newWithOptionsSinks (esBuildErr : Option String) (o : OptionsM) :
    Except String (List SinkCore) :=
  match parseLevel o.level with
  | .error e => .error ("invalid log level: " ++ e)
  | .ok _ =>
    match parseLevel o.stacktraceAt with
    | .error e => .error ("invalid stacktrace level: " ++ e)
    | .ok _ =>
      match buildCores esBuildErr o with
      | .error e => .error ("failed to build cores: " ++ e)
      | .ok cores =>
        if cores = [] then .ok [.consoleAdapterFallback] else .ok cores

/-- `logger.NewProduction(WithConsoleDisabled())`: production defaults
(`options.go:192-213`, `Env = "prod"`, `Level = "info"`,
`StacktraceAt = "error"`, no file or Elasticsearch sink) with
`DisableConsole` set by the option (`options.go:138-140`). -/
def productionConsoleDisabledOpts : OptionsM :=
  { env := "prod", disableConsole := true, hasFile := false,
    hasElastic := false, level := "info", stacktraceAt := "error" }

/-! ## The Elasticsearch writer (`src/unnamed/part_001`, `corefactories`)

State of one `elasticsearchWriter` plus the observable effects the claims
talk about: DLQ appends, the bulk indexer's accepted queue, metric
recordings, and the close-time effects.  The Go standard library's JSON
codec and the `esutil.BulkIndexer` are external collaborators and appear
as oracle functions. -/

/-- One record handed to `writeToDLQ`: the clock string, the reason code,
and the raw bytes passed in (recorded verbatim as `original_log`). -/
structure DlqRecord where
  timestamp : String
  reason : String
  original : List Char
deriving DecidableEq, Repr

/-- A parsed JSON log document, as far as the writer inspects it:
an association list of string keys to opaque values
(`map[string]interface{}` in the source). -/
abbrev JsonDoc := List (String × String)

/-- `logEntry["service"] = w.service`: set or replace a key in the parsed
document. -/
def setField (doc : JsonDoc) (key val : String) : JsonDoc :=
  if doc.any (fun kv => kv.1 = key) then
    doc.map (fun kv => if kv.1 = key then (key, val) else kv)
  else
    doc ++ [(key, val)]

/-- The mutable state of an `elasticsearchWriter`
(`src/unnamed/part_001`, lines 141-151), together with instrumentation
for the effects the claims mention.  `hasDlq` models `dlqFile != nil`;
`queue` is the sequence of enriched documents accepted by
`indexer.Add`; `addCalls` counts `indexer.Add` invocations (it indexes
the `addErr` oracle); `indexerCloses` and `dlqFileCloses` count the
close-time effects guarded by `closeOnce`. -/
structure ESWriter where
  service : String
  closed : Bool
  onceDone : Bool
  hasDlq : Bool
  metricsOn : Bool
  dlq : List DlqRecord
  queue : List (List Char)
  addCalls : ℕ
  dropMetrics : List (String × String)
  retryMetrics : List String
  indexerCloses : ℕ
  dlqFileCloses : ℕ
deriving DecidableEq, Repr

/-- External collaborators of the writer: the JSON decoder
(`json.Unmarshal` into `map[string]interface{}`), the JSON encoder
(`json.Marshal`), the outcome of each `indexer.Add` call (indexed by the
running call count), and the formatted UTC clock
(`time.Now().UTC().Format(time.RFC3339Nano)`). -/
structure ESOracle where
  parse : List Char → Option JsonDoc
  marshal : JsonDoc → Option (List Char)
  addErr : ℕ → Option String
  now : String

/-- `metrics.RecordLogDropped(sink, reason)` guarded by the
`metrics != nil` check. -/
def recordDrop (w : ESWriter) (sink reason : String) : ESWriter :=
  if w.metricsOn then { w with dropMetrics := w.dropMetrics ++ [(sink, reason)] }
  else w

/-- `metrics.RecordESBulkRetry(reason)` guarded by `metrics != nil`. -/
def recordRetry (w : ESWriter) (reason : String) : ESWriter :=
  if w.metricsOn then { w with retryMetrics := w.retryMetrics ++ [reason] }
  else w

/-- `elasticsearchWriter.writeToDLQ` (`src/unnamed/part_001`,
lines 338-361): a no-op when no DLQ file is configured, otherwise append
one record carrying the clock string, the reason, and the bytes verbatim. -/
def writeToDLQ (now : String) (w : ESWriter) (data : List Char) (reason : String) :
    ESWriter :=
  if w.hasDlq then
    { w with dlq := w.dlq ++ [{ timestamp := now, reason := reason, original := data }] }
  else w

/-- The result of a Go `Write([]byte) (int, error)`. -/
abbrev WriteResult := Except String ℕ

/-- `elasticsearchWriter.Write` (`src/unnamed/part_001`, lines 256-313):

1. if the writer is closed, DLQ the payload with reason `writer_closed`,
   record a drop metric, and return an error;
2. parse the payload as JSON; on failure DLQ it with reason
   `json_parse_error` and return an error;
3. enrich the parsed document with the `service` field and re-marshal; on
   failure DLQ with reason `enrichment_error` and return success
   (`len(p), nil`);
4. hand the enriched document to `indexer.Add`; if `Add` fails record a
   drop metric (`indexer_add_error`) and return the error without writing
   the DLQ; otherwise the document is enqueued and the call succeeds. -/
def esWrite (o : ESOracle) (w : ESWriter) (p : List Char) : ESWriter × WriteResult :=
  if w.closed then
    let w1 := writeToDLQ o.now w p "writer_closed"
    let w2 := recordDrop w1 "elasticsearch" "writer_closed"
    (w2, .error "elasticsearch writer is closed")
  else
    match o.parse p with
    | none =>
      (writeToDLQ o.now w p "json_parse_error",
       .error "failed to parse log entry as JSON")
    | some logEntry =>
      let enriched := setField logEntry "service" w.service
      match o.marshal enriched with
      | none => (writeToDLQ o.now w p "enrichment_error", .ok p.length)
      | some enrichedData =>
        match o.addErr w.addCalls with
        | some e =>
          let w1 := { w with addCalls := w.addCalls + 1 }
          (recordDrop w1 "elasticsearch" "indexer_add_error", .error e)
        | none =>
          ({ w with addCalls := w.addCalls + 1, queue := w.queue ++ [enrichedData] },
           .ok p.length)

/-- `elasticsearchWriter.Close` (`src/unnamed/part_001`, lines 319-336):
inside a `sync.Once`, mark the writer closed, close the bulk indexer
(error discarded), and close the DLQ file if open (error discarded);
always return `nil`.  The indexer-close and DLQ-file-close error oracles
are parameters to make the discarding explicit. -/
def esClose (indexerCloseErr dlqCloseErr : Option String) (w : ESWriter) :
    ESWriter × Option String :=
  if w.onceDone then (w, none)
  else
    let w1 := { w with
      onceDone := true
      closed := true
      indexerCloses := w.indexerCloses + 1
      dlqFileCloses := w.dlqFileCloses + (if w.hasDlq then 1 else 0) }
    -- `_ = w.indexer.Close(ctx)` and `_ = w.dlqFile.Close()`: both error
    -- values are discarded by the source.
    let _ := indexerCloseErr
    let _ := dlqCloseErr
    (w1, none)

/-! ## The retry wrapper (`retryableWriter`, `src/unnamed/part_001`) -/

/-- The loop body of `retryableWriter.Write` (`src/unnamed/part_001`,
lines 390-404): `remaining` counts the attempts still allowed (the Go
loop runs `attempt = 0 .. Max`, so it starts at `Max + 1`).  After a
failed attempt that is not the last, the bulk-retry metric is recorded
(`RecordESBulkRetry("write_error")`, after the backoff sleep) and the
loop continues.  Returns the writer state, the number of inner `Write`
invocations, and the final result (the last error on exhaustion). -/
def retryLoop (o : ESOracle) (p : List Char) :
    ℕ → ESWriter → ESWriter × ℕ × WriteResult
  | 0, w => (w, 0, .error "no attempts")
  | remaining + 1, w =>
    let a := esWrite o w p
    match a.2 with
    | .ok n => (a.1, 1, .ok n)
    | .error e =>
      if remaining = 0 then (a.1, 1, .error e)
      else
        let r := retryLoop o p remaining (recordRetry a.1 "write_error")
        (r.1, r.2.1 + 1, r.2.2)

/-- `retryableWriter.Write` (`src/unnamed/part_001`, lines 390-411): run
up to `Max + 1` attempts; if all fail, append the original payload to the
DLQ with reason `retries_exhausted`, record a drop metric, and return the
last error. -/
def retryWrite (o : ESOracle) (maxRetries : ℕ) (w : ESWriter) (p : List Char) :
    ESWriter × ℕ × WriteResult :=
  let r := retryLoop o p (maxRetries + 1) w
  match r.2.2 with
  | .ok n => (r.1, r.2.1, .ok n)
  | .error e =>
    let w2 := writeToDLQ o.now r.1 p "retries_exhausted"
    let w3 := recordDrop w2 "elasticsearch" "retries_exhausted"
    (w3, r.2.1, .error e)

/-! ## The zap adapter facade (`src/unnamed/part_004`) -/

/-- One ambient field attached via `With` (`logger.Field`: a key and a
value; values are opaque to the adapter, modelled as strings). -/
structure FieldM where
  key : String
  val : String
deriving DecidableEq, Repr

/-- The state of a `zapAdapter` (`src/unnamed/part_004`, lines 30-37) as
far as `With` and `Close` observe it: the underlying zap logger's
accumulated ambient fields (zap's `Logger.With` clones the logger and
appends), the shared closer list (identified here by the single
Elasticsearch writer closer plus an instrumentation counter), and the
shared pipeline identity. -/
structure ZapAdapter where
  pipeline : ℕ
  ambient : List FieldM
  closerIds : List ℕ
  service : String
deriving DecidableEq, Repr

/-- `zapAdapter.With` (`src/unnamed/part_004`, lines 194-203): build a new
adapter whose zap logger is `l.zl.With(fields...)` (ambient fields
extended by copy) and which shares the parent's closer list, metrics,
context keys and service. -/
def adapterWith (l : ZapAdapter) (fields : List FieldM) : ZapAdapter :=
  { l with ambient := l.ambient ++ fields }

/-- Instrumented state for double-`Close` analysis: the adapter together
with counters for `zl.Sync()` runs and closer invocations, and the state
of the Elasticsearch writer whose `Close` is the registered closer
(`core_builder.go:123` registers `esWriter.Close`). -/
structure AdapterCloseState where
  syncRuns : ℕ
  closerInvocations : ℕ
  es : ESWriter
deriving DecidableEq, Repr

/-- The two sync errors `zapAdapter.Close` tolerates
(`src/unnamed/part_004`, lines 240-242). -/
def isBenignSyncErr (e : String) : Bool :=
  e = "sync /dev/stdout: invalid argument" ∨ e = "sync /dev/stderr: invalid argument"

/-- `zapAdapter.Close` (`src/unnamed/part_004`, lines 237-256) for a
logger whose closer list is the single Elasticsearch writer closer: sync
the zap logger (returning early on a non-benign sync error), then invoke
every registered closer, collecting the last non-nil error.  There is no
one-shot guard at this level; idempotence can only come from the closers
themselves. -/
def adapterClose (syncErr : Option String)
    (indexerCloseErr dlqCloseErr : Option String)
    (s : AdapterCloseState) : AdapterCloseState × Option String :=
  let s1 := { s with syncRuns := s.syncRuns + 1 }
  match syncErr with
  | some e =>
    if isBenignSyncErr e then
      let (es1, closerErr) := esClose indexerCloseErr dlqCloseErr s1.es
      ({ s1 with closerInvocations := s1.closerInvocations + 1, es := es1 }, closerErr)
    else
      (s1, some ("failed to sync logger: " ++ e))
  | none =>
    let (es1, closerErr) := esClose indexerCloseErr dlqCloseErr s1.es
    ({ s1 with closerInvocations := s1.closerInvocations + 1, es := es1 }, closerErr)

/-! ## `generateIndexName` (`src/unnamed/part_001`, lines 363-373)

    now := time.Now().UTC()
    indexName := strings.ReplaceAll(pattern, "<service>", service)
    indexName = strings.ReplaceAll(indexName, "%Y", fmt.Sprintf("%04d", now.Year()))
    indexName = strings.ReplaceAll(indexName, "%m", fmt.Sprintf("%02d", now.Month()))
    indexName = strings.ReplaceAll(indexName, "%d", fmt.Sprintf("%02d", now.Day()))

Strings are modelled as `List Char`; `strings.ReplaceAll` is the
leftmost, non-overlapping replace-all.  The recursion is expressed with
an explicit fuel argument (always instantiated with the input length,
which suffices because every step consumes at least one character), so
that the function is structural and evaluates by `decide`/`rfl`. -/

/-- Fuelled core of `strings.ReplaceAll` on character lists: scan left to
right; whenever the (non-empty) pattern is a prefix, emit the replacement
and skip the pattern, else emit one character. -/
def replaceAllF (pat rep : List Char) : ℕ → List Char → List Char
  | _, [] => []
  | 0, l => l
  | fuel + 1, c :: rest =>
    if pat ≠ [] ∧ pat.isPrefixOf (c :: rest) then
      rep ++ replaceAllF pat rep fuel ((c :: rest).drop pat.length)
    else
      c :: replaceAllF pat rep fuel rest

/-- `strings.ReplaceAll pat → rep` on character lists. -/
def listReplaceAll (pat rep l : List Char) : List Char :=
  replaceAllF pat rep l.length l

/-- Decimal digits of `n`, least significant first (fuelled division
loop). -/
def digitsRevF : ℕ → ℕ → List Char
  | _, 0 => []
  | 0, _ => []
  | fuel + 1, n + 1 =>
    Char.ofNat (48 + (n + 1) % 10) :: digitsRevF fuel ((n + 1) / 10)

/-- Go's `fmt.Sprintf("%0*d", width, n)` for natural `n`: decimal digits,
left-padded with zeros to `width` (longer numbers are not truncated). -/
def padNum (width n : ℕ) : List Char :=
  let digits := if n = 0 then ['0'] else (digitsRevF n n).reverse
  List.replicate (width - digits.length) '0' ++ digits

/-- The `<service>` placeholder. -/
def svcTok : List Char := "<service>".toList

/-- The `%Y` placeholder. -/
def yTok : List Char := "%Y".toList

/-- The `%m` placeholder. -/
def mTok : List Char := "%m".toList

/-- The `%d` placeholder. -/
def dTok : List Char := "%d".toList

/-- `generateIndexName`, as a function of the pattern, the service name,
and the current UTC date components (the source reads them from
`time.Now().UTC()`). -/
def generateIndexName (pattern service : List Char) (year month day : ℕ) :
    List Char :=
  let s1 := listReplaceAll svcTok service pattern
  let s2 := listReplaceAll yTok (padNum 4 year) s1
  let s3 := listReplaceAll mTok (padNum 2 month) s2
  listReplaceAll dTok (padNum 2 day) s3

/-- `pat` occurs nowhere in `s` (no suffix of `s` starts with `pat`;
`i = s.length` gives the empty suffix, harmless for non-empty `pat`). -/
def noOccur (pat s : List Char) : Prop :=
  ∀ i ≤ s.length, ¬ pat.isPrefixOf (s.drop i)

/-- No occurrence of `pat` starts strictly inside `a` when `a` is
followed by `rest` (occurrences may overlap from `a` into `rest`). -/
def noStartIn (pat a rest : List Char) : Prop :=
  ∀ i < a.length, ¬ pat.isPrefixOf (a.drop i ++ rest)

instance (pat s : List Char) : Decidable (noOccur pat s) :=
  inferInstanceAs (Decidable (∀ i ≤ s.length, ¬ pat.isPrefixOf (s.drop i)))

instance (pat a rest : List Char) : Decidable (noStartIn pat a rest) :=
  inferInstanceAs (Decidable (∀ i < a.length, ¬ pat.isPrefixOf (a.drop i ++ rest)))

/-! ## The DLQ line format (`writeToDLQ` + `encoding/json`)

`writeToDLQ` marshals
`map[string]interface{}{"timestamp": ..., "reason": ..., "original_log": string(data)}`
with `json.Marshal` and appends the result plus a newline to the DLQ
file.  `json.Marshal` emits map keys in sorted order
(`"original_log" < "reason" < "timestamp"`) and escapes string values
per RFC 8259 with Go's default HTML escaping.  The encoder below follows
Go's `encoding/json` string escaping; `parseDlqLine` is a strict reader
of exactly that three-field object shape, used to state well-formedness
and the round-trip property. -/

/-- Lowercase hexadecimal digit. -/
def hexDigitChar (n : ℕ) : Char :=
  if n < 10 then Char.ofNat (48 + n) else Char.ofNat (87 + n)

/-- Go `encoding/json` escaping of one character (HTML escaping on, the
`json.Marshal` default): quote, backslash, the common control escapes,
`\u00XX` for other control characters, `<`/`>`/`&` for
`<`/`>`/`&`, and ` `/` ` for the Unicode line separators. -/
def jsonEscapeChar (c : Char) : List Char :=
  if c = '"' then ['\\', '"']
  else if c = '\\' then ['\\', '\\']
  else if c = '\n' then ['\\', 'n']
  else if c = '\r' then ['\\', 'r']
  else if c = '\t' then ['\\', 't']
  else if c.toNat < 32 then
    ['\\', 'u', '0', '0', hexDigitChar (c.toNat / 16), hexDigitChar (c.toNat % 16)]
  else if c = '<' then ['\\', 'u', '0', '0', '3', 'c']
  else if c = '>' then ['\\', 'u', '0', '0', '3', 'e']
  else if c = '&' then ['\\', 'u', '0', '0', '2', '6']
  else if c.toNat = 8232 then ['\\', 'u', '2', '0', '2', '8']
  else if c.toNat = 8233 then ['\\', 'u', '2', '0', '2', '9']
  else [c]

/-- Go `encoding/json` escaping of a string. -/
def jsonEscape : List Char → List Char
  | [] => []
  | c :: rest => jsonEscapeChar c ++ jsonEscape rest

/-- Value of a hexadecimal digit character. -/
def hexVal (c : Char) : Option ℕ :=
  if 48 ≤ c.toNat ∧ c.toNat ≤ 57 then some (c.toNat - 48)
  else if 97 ≤ c.toNat ∧ c.toNat ≤ 102 then some (c.toNat - 87)
  else if 65 ≤ c.toNat ∧ c.toNat ≤ 70 then some (c.toNat - 55)
  else none

/-- Fuelled JSON string-body reader: consume characters up to and
including an unescaped closing quote, decoding escapes; reject raw
control characters.  Returns the decoded content and the remainder after
the closing quote. -/
def parseStrF : ℕ → List Char → Option (List Char × List Char)
  | 0, _ => none
  | _ + 1, [] => none
  | fuel + 1, c :: rest =>
    if c = '"' then some ([], rest)
    else if c = '\\' then
      match rest with
      | '"' :: r => (parseStrF fuel r).map (fun pr => ('"' :: pr.1, pr.2))
      | '\\' :: r => (parseStrF fuel r).map (fun pr => ('\\' :: pr.1, pr.2))
      | '/' :: r => (parseStrF fuel r).map (fun pr => ('/' :: pr.1, pr.2))
      | 'n' :: r => (parseStrF fuel r).map (fun pr => ('\n' :: pr.1, pr.2))
      | 'r' :: r => (parseStrF fuel r).map (fun pr => ('\r' :: pr.1, pr.2))
      | 't' :: r => (parseStrF fuel r).map (fun pr => ('\t' :: pr.1, pr.2))
      | 'u' :: h1 :: h2 :: h3 :: h4 :: r =>
        match hexVal h1, hexVal h2, hexVal h3, hexVal h4 with
        | some a, some b, some hc, some hd =>
          (parseStrF fuel r).map
            (fun pr =>
              (Char.ofNat (4096 * a + 256 * b + 16 * hc + hd) :: pr.1, pr.2))
        | _, _, _, _ => none
      | _ => none
    else if c.toNat < 32 then none
    else (parseStrF fuel rest).map (fun pr => (c :: pr.1, pr.2))

/-- JSON string-body reader with sufficient fuel (each step consumes at
least one input character). -/
def parseJsonString (l : List Char) : Option (List Char × List Char) :=
  parseStrF (l.length + 1) l

/-- A JSON string literal: `"` + escaped content + `"`. -/
def quoteStr (s : List Char) : List Char :=
  '"' :: (jsonEscape s ++ ['"'])

/-- Opening brace plus the first key of the marshalled DLQ object,
including the opening quote of its string value. -/
def dlqKeyOriginal : List Char := '\x7b' :: "\"original_log\":\"".toList

/-- Separator plus the second key, with the opening quote of its value. -/
def dlqKeyReason : List Char := ",\"reason\":\"".toList

/-- Separator plus the third key, with the opening quote of its value. -/
def dlqKeyTimestamp : List Char := ",\"timestamp\":\"".toList

/-- The DLQ line built by `writeToDLQ` (`src/unnamed/part_001`,
lines 346-359): `json.Marshal` of the three-entry map
`timestamp / reason / original_log`, keys in Go's sorted map-marshal
order (`original_log < reason < timestamp`), string values escaped as by
`encoding/json`.  (`writeToDLQ` then appends this line and a trailing
newline to the file.)  The closing quote of each value is written
explicitly between the segments. -/
def mkDlqLine (now reason original : List Char) : List Char :=
  dlqKeyOriginal ++ (jsonEscape original ++ ('"' ::
    (dlqKeyReason ++ (jsonEscape reason ++ ('"' ::
      (dlqKeyTimestamp ++ (jsonEscape now ++ ('"' :: ['\x7d']))))))))

/-- Consume an expected literal prefix. -/
def expectPrefix (pat l : List Char) : Option (List Char) :=
  if pat.isPrefixOf l then some (l.drop pat.length) else none

/-- Strict reader for a DLQ line: exactly one JSON object with exactly
the fields `original_log`, `reason`, `timestamp` (in Go's sorted
map-key order), each a JSON string; returns their decoded values. -/
def parseDlqLine (l : List Char) : Option (List Char × List Char × List Char) :=
  match expectPrefix dlqKeyOriginal l with
  | none => none
  | some r1 =>
    match parseJsonString r1 with
    | none => none
    | some (orig, r2) =>
      match expectPrefix dlqKeyReason r2 with
      | none => none
      | some r3 =>
        match parseJsonString r3 with
        | none => none
        | some (reason, r4) =>
          match expectPrefix dlqKeyTimestamp r4 with
          | none => none
          | some r5 =>
            match parseJsonString r5 with
            | none => none
            | some (ts, r6) =>
              if r6 = ['\x7d'] then some (orig, reason, ts) else none

/-! ## Concrete states and oracles used to instantiate the theorems -/

/-- A freshly constructed Elasticsearch writer with a configured DLQ
file (`newElasticsearchWriter` with `DLQPath != ""`) and metrics
disabled. -/
def freshESWriter : ESWriter :=
  { service := "app", closed := false, onceDone := false, hasDlq := true,
    metricsOn := false, dlq := [], queue := [], addCalls := 0,
    dropMetrics := [], retryMetrics := [], indexerCloses := 0,
    dlqFileCloses := 0 }

/-- The writer after its `Close` has run. -/
def closedESWriter : ESWriter :=
  { freshESWriter with
    closed := true, onceDone := true, indexerCloses := 1,
    dlqFileCloses := 1 }

/-- An adapter-close state for a logger whose single registered closer is
the Elasticsearch writer's `Close`. -/
def freshCloseState : AdapterCloseState :=
  { syncRuns := 0, closerInvocations := 0, es := freshESWriter }

/-- Oracle for a payload that is not valid JSON: `json.Unmarshal` fails
on every input; the indexer would accept anything. -/
def parseFailOracle : ESOracle :=
  { parse := fun _ => none, marshal := fun _ => some ['e'],
    addErr := fun _ => none, now := "2026-10-11T00:00:00Z" }

/-- Oracle for a well-formed payload whose `indexer.Add` is always
rejected (buffer refuses the add on every call). -/
def addFailOracle : ESOracle :=
  { parse := fun _ => some [("msg", "hi")], marshal := fun _ => some ['e'],
    addErr := fun _ => some "bulk indexer add rejected",
    now := "2026-10-11T00:00:00Z" }

/-- Oracle for a well-formed payload that the indexer accepts. -/
def addOkOracle : ESOracle :=
  { parse := fun _ => some [("msg", "hi")], marshal := fun _ => some ['e'],
    addErr := fun _ => none, now := "2026-10-11T00:00:00Z" }

/-! ## Helper lemmas -/

theorem recordDrop_service (w : ESWriter) (s r : String) :
    (recordDrop w s r).service = w.service := by
  unfold recordDrop; split <;> rfl

theorem recordDrop_closed (w : ESWriter) (s r : String) :
    (recordDrop w s r).closed = w.closed := by
  unfold recordDrop; split <;> rfl

theorem recordDrop_hasDlq (w : ESWriter) (s r : String) :
    (recordDrop w s r).hasDlq = w.hasDlq := by
  unfold recordDrop; split <;> rfl

theorem recordDrop_metricsOn (w : ESWriter) (s r : String) :
    (recordDrop w s r).metricsOn = w.metricsOn := by
  unfold recordDrop; split <;> rfl

theorem recordDrop_dlq (w : ESWriter) (s r : String) :
    (recordDrop w s r).dlq = w.dlq := by
  unfold recordDrop; split <;> rfl

theorem recordDrop_queue (w : ESWriter) (s r : String) :
    (recordDrop w s r).queue = w.queue := by
  unfold recordDrop; split <;> rfl

theorem recordDrop_addCalls (w : ESWriter) (s r : String) :
    (recordDrop w s r).addCalls = w.addCalls := by
  unfold recordDrop; split <;> rfl

theorem recordDrop_dropMetrics (w : ESWriter) (s r : String) :
    (recordDrop w s r).dropMetrics
      = w.dropMetrics ++ (if w.metricsOn then [(s, r)] else []) := by
  unfold recordDrop; split <;> simp_all

theorem recordRetry_service (w : ESWriter) (r : String) :
    (recordRetry w r).service = w.service := by
  unfold recordRetry; split <;> rfl

theorem recordRetry_closed (w : ESWriter) (r : String) :
    (recordRetry w r).closed = w.closed := by
  unfold recordRetry; split <;> rfl

theorem recordRetry_hasDlq (w : ESWriter) (r : String) :
    (recordRetry w r).hasDlq = w.hasDlq := by
  unfold recordRetry; split <;> rfl

theorem recordRetry_metricsOn (w : ESWriter) (r : String) :
    (recordRetry w r).metricsOn = w.metricsOn := by
  unfold recordRetry; split <;> rfl

theorem recordRetry_dlq (w : ESWriter) (r : String) :
    (recordRetry w r).dlq = w.dlq := by
  unfold recordRetry; split <;> rfl

theorem recordRetry_queue (w : ESWriter) (r : String) :
    (recordRetry w r).queue = w.queue := by
  unfold recordRetry; split <;> rfl

theorem recordRetry_addCalls (w : ESWriter) (r : String) :
    (recordRetry w r).addCalls = w.addCalls := by
  unfold recordRetry; split <;> rfl

theorem writeToDLQ_dlq (now : String) (w : ESWriter) (d : List Char) (r : String) :
    (writeToDLQ now w d r).dlq
      = w.dlq ++ (if w.hasDlq then [⟨now, r, d⟩] else []) := by
  unfold writeToDLQ; split <;> simp_all

theorem writeToDLQ_queue (now : String) (w : ESWriter) (d : List Char) (r : String) :
    (writeToDLQ now w d r).queue = w.queue := by
  unfold writeToDLQ; split <;> rfl

theorem writeToDLQ_addCalls (now : String) (w : ESWriter) (d : List Char) (r : String) :
    (writeToDLQ now w d r).addCalls = w.addCalls := by
  unfold writeToDLQ; split <;> rfl

theorem writeToDLQ_metricsOn (now : String) (w : ESWriter) (d : List Char) (r : String) :
    (writeToDLQ now w d r).metricsOn = w.metricsOn := by
  unfold writeToDLQ; split <;> rfl

theorem writeToDLQ_hasDlq (now : String) (w : ESWriter) (d : List Char) (r : String) :
    (writeToDLQ now w d r).hasDlq = w.hasDlq := by
  unfold writeToDLQ; split <;> rfl

theorem writeToDLQ_closed (now : String) (w : ESWriter) (d : List Char) (r : String) :
    (writeToDLQ now w d r).closed = w.closed := by
  unfold writeToDLQ; split <;> rfl

theorem writeToDLQ_service (now : String) (w : ESWriter) (d : List Char) (r : String) :
    (writeToDLQ now w d r).service = w.service := by
  unfold writeToDLQ; split <;> rfl

theorem writeToDLQ_dropMetrics (now : String) (w : ESWriter) (d : List Char) (r : String) :
    (writeToDLQ now w d r).dropMetrics = w.dropMetrics := by
  unfold writeToDLQ; split <;> rfl

/-! ## C3: exponential backoff -/

/-- C3: for every attempt index `i` (with `BackoffMin ≥ 0`), the
un-jittered backoff computed by `calculateBackoff` equals
`min (BackoffMin * 2 ^ i) BackoffMax`; hence it is non-decreasing in `i`
and never exceeds `BackoffMax`, and the returned (jittered) value differs
from it by at most 25 percent. -/
theorem C3_calculateBackoff_spec (bmin bmax r : ℚ) (i : ℕ)
    (hbmin : 0 ≤ bmin) (hbmax : 0 ≤ bmax) (hr0 : 0 ≤ r) (hr1 : r ≤ 1) :
    calculateBackoffUnjittered bmin bmax i = min (bmin * 2 ^ i) bmax ∧
    calculateBackoffUnjittered bmin bmax i
      ≤ calculateBackoffUnjittered bmin bmax (i + 1) ∧
    calculateBackoffUnjittered bmin bmax i ≤ bmax ∧
    |calculateBackoff bmin bmax r i - calculateBackoffUnjittered bmin bmax i|
      ≤ calculateBackoffUnjittered bmin bmax i / 4 := by
  have hmin : ∀ j : ℕ,
      calculateBackoffUnjittered bmin bmax j = min (bmin * 2 ^ j) bmax := by
    intro j
    unfold calculateBackoffUnjittered
    rcases le_or_lt (bmin * 2 ^ j) bmax with h | h
    · rw [if_neg (not_lt.mpr h), min_eq_left h]
    · rw [if_pos h, min_eq_right h.le]
  have hpow : bmin * 2 ^ i ≤ bmin * 2 ^ (i + 1) := by
    have h2 : (2 : ℚ) ^ i ≤ 2 ^ (i + 1) :=
      pow_le_pow_right₀ (by norm_num) (Nat.le_succ i)
    exact mul_le_mul_of_nonneg_left h2 hbmin
  have hu : 0 ≤ calculateBackoffUnjittered bmin bmax i := by
    rw [hmin i]
    exact le_min (mul_nonneg hbmin (by positivity)) hbmax
  refine ⟨hmin i, ?_, ?_, ?_⟩
  · rw [hmin i, hmin (i + 1)]
    exact min_le_min hpow le_rfl
  · rw [hmin i]; exact min_le_right _ _
  · unfold calculateBackoff
    set u := calculateBackoffUnjittered bmin bmax i with hudef
    have habs : |2 * r - 1| ≤ 1 := abs_le.mpr ⟨by linarith, by linarith⟩
    calc |u + u * (1 / 4) * (2 * r - 1) - u|
        = |u * (1 / 4)| * |2 * r - 1| := by rw [← abs_mul]; ring_nf
      _ ≤ |u * (1 / 4)| * 1 := by
          exact mul_le_mul_of_nonneg_left habs (abs_nonneg _)
      _ = u / 4 := by
          rw [abs_of_nonneg (by positivity)]; ring

/-- C3 witness: the specification instantiated at
`BackoffMin = 1`, `BackoffMax = 100`, `r = 1/2`, attempt `3`. -/
theorem C3_calculateBackoff_spec_witness :
    calculateBackoffUnjittered 1 100 3 = min ((1 : ℚ) * 2 ^ 3) 100 ∧
    calculateBackoffUnjittered 1 100 3
      ≤ calculateBackoffUnjittered 1 100 (3 + 1) ∧
    calculateBackoffUnjittered 1 100 3 ≤ 100 ∧
    |calculateBackoff 1 100 (1 / 2) 3 - calculateBackoffUnjittered 1 100 3|
      ≤ calculateBackoffUnjittered 1 100 3 / 4 :=
  C3_calculateBackoff_spec 1 100 (1 / 2) 3 (by norm_num) (by norm_num)
    (by norm_num) (by norm_num)

/-! ## C1: construction with console disabled and no other sink -/

/-- C1 (evaluation of the code at the failing configuration): with the
production defaults, `WithConsoleDisabled()`, and no file or
Elasticsearch sink, `NewWithOptions` does not fail; `buildCores` ignores
`DisableConsole` and appends the production JSON console fallback core
(`core_builder.go:56-59`), so construction succeeds with a console sink
— there is no "no log sinks configured" error anywhere in this code
path, contradicting the claim (and the repository's own test
`TestConsoleDisabledNoSinksFails`). -/
theorem C1_consoleDisabled_buildsConsoleFallback :
    newWithOptionsSinks none productionConsoleDisabledOpts
      = .ok [SinkCore.consoleProdFallback] := by
  rfl

/-! ## C10: the Elasticsearch writer's Close always returns nil -/

/-- C10: `elasticsearchWriter.Close` returns `nil` for every writer state
and every outcome of the bulk indexer's flush-and-close and of the DLQ
file close: both errors are discarded inside the one-shot guard. -/
theorem C10_esClose_always_nil (indexerCloseErr dlqCloseErr : Option String)
    (w : ESWriter) :
    (esClose indexerCloseErr dlqCloseErr w).2 = none := by
  unfold esClose; split <;> rfl

/-! ## C7: idempotence of `Close` -/

/-- C7 counterexample: calling `zapAdapter.Close` twice on a freshly
constructed logger (single Elasticsearch closer, successful sync) is not
a no-op on the second call: the facade has no one-shot guard, so the
second call runs `zl.Sync()` again and re-invokes the closer list —
`syncRuns` and `closerInvocations` both reach 2, so the post-state of the
second call differs from the post-state of the first. -/
theorem C7_doubleClose_counterexample :
    ((adapterClose none none none
        ((adapterClose none none none freshCloseState).1)).1
      ≠ (adapterClose none none none freshCloseState).1) ∧
    (adapterClose none none none
        ((adapterClose none none none freshCloseState).1)).1.closerInvocations
      = 2 ∧
    (adapterClose none none none
        ((adapterClose none none none freshCloseState).1)).1.syncRuns = 2 := by
  decide

/-- C7 (amended): calling `Close` twice on the same logger produces no
panic and both calls return without error when sync succeeds; the
Elasticsearch writer's close effects converge to a single execution via
its own one-shot guard (`closeOnce` in `elasticsearchWriter.Close`), so
the second facade call leaves the writer state untouched; but the facade
itself (`zapAdapter.Close`, `src/unnamed/part_004`) has no one-shot
guard: the second call re-runs sync and re-invokes every registered
closer, and its result is recomputed rather than replayed from the first
call. -/
theorem C7_doubleClose_amended (indexerCloseErr dlqCloseErr : Option String)
    (s : AdapterCloseState) :
    (adapterClose none indexerCloseErr dlqCloseErr
        ((adapterClose none indexerCloseErr dlqCloseErr s).1)).1.es
      = (adapterClose none indexerCloseErr dlqCloseErr s).1.es ∧
    (adapterClose none indexerCloseErr dlqCloseErr s).1.es.onceDone = true ∧
    (adapterClose none indexerCloseErr dlqCloseErr
        ((adapterClose none indexerCloseErr dlqCloseErr s).1)).1.syncRuns
      = s.syncRuns + 2 ∧
    (adapterClose none indexerCloseErr dlqCloseErr
        ((adapterClose none indexerCloseErr dlqCloseErr s).1)).1.closerInvocations
      = s.closerInvocations + 2 ∧
    (adapterClose none indexerCloseErr dlqCloseErr s).2 = none ∧
    (adapterClose none indexerCloseErr dlqCloseErr
        ((adapterClose none indexerCloseErr dlqCloseErr s).1)).2 = none := by
  by_cases h : s.es.onceDone <;>
    simp [adapterClose, esClose, h]

/-! ## C9: `With` extends without mutating the parent -/

/-- C9: `With(F)` returns a new facade that shares the parent's pipeline
and closer list and whose ambient fields are the parent's extended by
`F` (copy-on-extend); the parent's own field list is left as it was, and
two sibling loggers derived from the same parent never observe each
other's fields: a field `g` contributed only by the sibling's extension
`f2` does not appear in the ambient fields of `With(f1)`. -/
theorem C9_with_copyOnExtend (l : ZapAdapter) (f1 f2 : List FieldM)
    (g : FieldM) (hg2 : g ∈ f2) (hgl : g ∉ l.ambient) (hgf1 : g ∉ f1) :
    (adapterWith l f1).pipeline = l.pipeline ∧
    (adapterWith l f1).closerIds = l.closerIds ∧
    (adapterWith l f1).service = l.service ∧
    (adapterWith l f1).ambient = l.ambient ++ f1 ∧
    (adapterWith l f2).ambient = l.ambient ++ f2 ∧
    g ∈ (adapterWith l f2).ambient ∧
    g ∉ (adapterWith l f1).ambient := by
  refine ⟨rfl, rfl, rfl, rfl, rfl, ?_, ?_⟩
  · simpa [adapterWith] using Or.inr hg2
  · simp only [adapterWith, List.mem_append]
    rintro (h | h) <;> [exact hgl h; exact hgf1 h]

/-- C9 witness: concrete parent with one closer and empty ambient set,
siblings extended by distinct fields. -/
theorem C9_with_copyOnExtend_witness :
    (adapterWith ⟨7, [], [1], "app"⟩ [⟨"a", "1"⟩]).pipeline = 7 ∧
    (adapterWith ⟨7, [], [1], "app"⟩ [⟨"a", "1"⟩]).closerIds = [1] ∧
    (adapterWith ⟨7, [], [1], "app"⟩ [⟨"a", "1"⟩]).service = "app" ∧
    (adapterWith ⟨7, [], [1], "app"⟩ [⟨"a", "1"⟩]).ambient
      = [] ++ [⟨"a", "1"⟩] ∧
    (adapterWith ⟨7, [], [1], "app"⟩ [⟨"b", "2"⟩]).ambient
      = [] ++ [⟨"b", "2"⟩] ∧
    (⟨"b", "2"⟩ : FieldM) ∈ (adapterWith ⟨7, [], [1], "app"⟩ [⟨"b", "2"⟩]).ambient ∧
    (⟨"b", "2"⟩ : FieldM) ∉ (adapterWith ⟨7, [], [1], "app"⟩ [⟨"a", "1"⟩]).ambient :=
  C9_with_copyOnExtend ⟨7, [], [1], "app"⟩ [⟨"a", "1"⟩] [⟨"b", "2"⟩]
    ⟨"b", "2"⟩ (by decide) (by decide) (by decide)

/-! ## C5: writes after Close are rejected -/

/-- C5: once the writer is closed, every `Write` returns a non-nil error
immediately; nothing is handed to the bulk indexer (`queue` and
`addCalls` are unchanged), the discarded line is appended to the DLQ with
reason `writer_closed` when a DLQ file is configured (a no-op otherwise —
the source only attempts the append), and a drop metric is recorded when
metrics are enabled. -/
theorem C5_write_after_close (o : ESOracle) (w : ESWriter) (p : List Char)
    (h : w.closed = true) :
    (esWrite o w p).2 = .error "elasticsearch writer is closed" ∧
    (esWrite o w p).1.queue = w.queue ∧
    (esWrite o w p).1.addCalls = w.addCalls ∧
    (esWrite o w p).1.dlq
      = w.dlq ++ (if w.hasDlq then [⟨o.now, "writer_closed", p⟩] else []) ∧
    (esWrite o w p).1.dropMetrics
      = w.dropMetrics
          ++ (if w.metricsOn then [("elasticsearch", "writer_closed")] else []) := by
  have he : esWrite o w p
      = (recordDrop (writeToDLQ o.now w p "writer_closed")
          "elasticsearch" "writer_closed",
         .error "elasticsearch writer is closed") := by
    unfold esWrite
    rw [if_pos h]
  rw [he]
  refine ⟨rfl, ?_, ?_, ?_, ?_⟩
  · rw [recordDrop_queue, writeToDLQ_queue]
  · rw [recordDrop_addCalls, writeToDLQ_addCalls]
  · rw [recordDrop_dlq, writeToDLQ_dlq]
  · rw [recordDrop_dropMetrics, writeToDLQ_metricsOn, writeToDLQ_dropMetrics]

/-- C5 witness: the closed writer with a configured DLQ file rejects a
concrete payload. -/
theorem C5_write_after_close_witness :
    (esWrite addOkOracle closedESWriter ['x']).2
      = .error "elasticsearch writer is closed" ∧
    (esWrite addOkOracle closedESWriter ['x']).1.queue = closedESWriter.queue ∧
    (esWrite addOkOracle closedESWriter ['x']).1.addCalls
      = closedESWriter.addCalls ∧
    (esWrite addOkOracle closedESWriter ['x']).1.dlq
      = closedESWriter.dlq
          ++ (if closedESWriter.hasDlq
              then [⟨addOkOracle.now, "writer_closed", ['x']⟩] else []) ∧
    (esWrite addOkOracle closedESWriter ['x']).1.dropMetrics
      = closedESWriter.dropMetrics
          ++ (if closedESWriter.metricsOn
              then [("elasticsearch", "writer_closed")] else []) :=
  C5_write_after_close addOkOracle closedESWriter ['x'] rfl

/-! ## C2: the retry wrapper -/

theorem esWrite_addFail (o : ESOracle) (w : ESWriter) (p : List Char)
    (doc : JsonDoc) (ed : List Char) (e : String)
    (hclosed : w.closed = false)
    (hparse : o.parse p = some doc)
    (hmarshal : o.marshal (setField doc "service" w.service) = some ed)
    (haddErr : o.addErr w.addCalls = some e) :
    esWrite o w p
      = (recordDrop { w with addCalls := w.addCalls + 1 }
          "elasticsearch" "indexer_add_error", .error e) := by
  simp [esWrite, hclosed, hparse, hmarshal, haddErr]

theorem esWrite_addOk (o : ESOracle) (w : ESWriter) (p : List Char)
    (doc : JsonDoc) (ed : List Char)
    (hclosed : w.closed = false)
    (hparse : o.parse p = some doc)
    (hmarshal : o.marshal (setField doc "service" w.service) = some ed)
    (haddErr : o.addErr w.addCalls = none) :
    esWrite o w p
      = ({ w with addCalls := w.addCalls + 1, queue := w.queue ++ [ed] },
         .ok p.length) := by
  simp [esWrite, hclosed, hparse, hmarshal, haddErr]

theorem retryLoop_succ (o : ESOracle) (p : List Char) (remaining : ℕ)
    (w : ESWriter) :
    retryLoop o p (remaining + 1) w =
      (let a := esWrite o w p
       match a.2 with
       | .ok n => (a.1, 1, .ok n)
       | .error e =>
         if remaining = 0 then (a.1, 1, .error e)
         else
           let r := retryLoop o p remaining (recordRetry a.1 "write_error")
           (r.1, r.2.1 + 1, r.2.2)) := rfl

theorem retryLoop_ok_step (o : ESOracle) (p : List Char) (remaining : ℕ)
    (w w1 : ESWriter) (n : ℕ) (hew : esWrite o w p = (w1, .ok n)) :
    retryLoop o p (remaining + 1) w = (w1, 1, .ok n) := by
  rw [retryLoop_succ, hew]

theorem retryLoop_error_last (o : ESOracle) (p : List Char)
    (w w1 : ESWriter) (e : String) (hew : esWrite o w p = (w1, .error e)) :
    retryLoop o p 1 w = (w1, 1, .error e) := by
  rw [retryLoop_succ, hew]
  rfl

theorem retryLoop_error_step (o : ESOracle) (p : List Char) (remaining : ℕ)
    (w w1 : ESWriter) (e : String) (hew : esWrite o w p = (w1, .error e))
    (hrem : remaining ≠ 0) :
    retryLoop o p (remaining + 1) w
      = ((retryLoop o p remaining (recordRetry w1 "write_error")).1,
         (retryLoop o p remaining (recordRetry w1 "write_error")).2.1 + 1,
         (retryLoop o p remaining (recordRetry w1 "write_error")).2.2) := by
  rw [retryLoop_succ, hew]
  simp [hrem]

theorem retryLoop_allAddFail (o : ESOracle) (p : List Char) (doc : JsonDoc)
    (ed : List Char) (errs : ℕ → String) (sv : String)
    (hparse : o.parse p = some doc)
    (hmarshal : o.marshal (setField doc "service" sv) = some ed)
    (haddFail : ∀ n, o.addErr n = some (errs n)) :
    ∀ (rem : ℕ) (w : ESWriter), w.closed = false → w.service = sv →
      (retryLoop o p (rem + 1) w).2.1 = rem + 1 ∧
      (retryLoop o p (rem + 1) w).2.2 = .error (errs (w.addCalls + rem)) ∧
      (retryLoop o p (rem + 1) w).1.dlq = w.dlq ∧
      (retryLoop o p (rem + 1) w).1.queue = w.queue ∧
      (retryLoop o p (rem + 1) w).1.hasDlq = w.hasDlq ∧
      (retryLoop o p (rem + 1) w).1.metricsOn = w.metricsOn := by
  intro rem
  induction rem with
  | zero =>
    intro w hclosed hsv
    have hew := esWrite_addFail o w p doc ed (errs w.addCalls) hclosed hparse
      (by rw [hsv]; exact hmarshal) (haddFail w.addCalls)
    rw [retryLoop_error_last o p w _ _ hew]
    refine ⟨rfl, rfl, ?_, ?_, ?_, ?_⟩
    · rw [recordDrop_dlq]
    · rw [recordDrop_queue]
    · rw [recordDrop_hasDlq]
    · rw [recordDrop_metricsOn]
  | succ rem ih =>
    intro w hclosed hsv
    have hew := esWrite_addFail o w p doc ed (errs w.addCalls) hclosed hparse
      (by rw [hsv]; exact hmarshal) (haddFail w.addCalls)
    set w2 : ESWriter :=
      recordRetry (recordDrop { w with addCalls := w.addCalls + 1 }
        "elasticsearch" "indexer_add_error") "write_error" with hw2
    have hw2closed : w2.closed = false := by
      rw [hw2, recordRetry_closed, recordDrop_closed]; exact hclosed
    have hw2sv : w2.service = sv := by
      rw [hw2, recordRetry_service, recordDrop_service]; exact hsv
    have hw2add : w2.addCalls = w.addCalls + 1 := by
      rw [hw2, recordRetry_addCalls, recordDrop_addCalls]
    have hw2dlq : w2.dlq = w.dlq := by
      rw [hw2, recordRetry_dlq, recordDrop_dlq]
    have hw2queue : w2.queue = w.queue := by
      rw [hw2, recordRetry_queue, recordDrop_queue]
    have hw2hasDlq : w2.hasDlq = w.hasDlq := by
      rw [hw2, recordRetry_hasDlq, recordDrop_hasDlq]
    have hw2metricsOn : w2.metricsOn = w.metricsOn := by
      rw [hw2, recordRetry_metricsOn, recordDrop_metricsOn]
    have ihw := ih w2 hw2closed hw2sv
    have harith : w2.addCalls + rem = w.addCalls + (rem + 1) := by
      rw [hw2add]; omega
    have hstep := retryLoop_error_step o p (rem + 1) w _ _ hew
      (Nat.succ_ne_zero rem)
    rw [← hw2] at hstep
    rw [hstep]
    refine ⟨by rw [ihw.1], ?_, ?_, ?_, ?_, ?_⟩
    · rw [ihw.2.1, harith]
    · rw [ihw.2.2.1, hw2dlq]
    · rw [ihw.2.2.2.1, hw2queue]
    · rw [ihw.2.2.2.2.1, hw2hasDlq]
    · rw [ihw.2.2.2.2.2, hw2metricsOn]

theorem retryLoop_firstSuccessAt (o : ESOracle) (p : List Char) (doc : JsonDoc)
    (ed : List Char) (sv : String)
    (hparse : o.parse p = some doc)
    (hmarshal : o.marshal (setField doc "service" sv) = some ed) :
    ∀ (k rem : ℕ) (w : ESWriter), w.closed = false → w.service = sv →
      k < rem →
      (∀ n < k, (o.addErr (w.addCalls + n)).isSome) →
      o.addErr (w.addCalls + k) = none →
      (retryLoop o p rem w).2.2 = .ok p.length ∧
      (retryLoop o p rem w).2.1 = k + 1 ∧
      (retryLoop o p rem w).1.dlq = w.dlq ∧
      (retryLoop o p rem w).1.queue = w.queue ++ [ed] := by
  intro k
  induction k with
  | zero =>
    intro rem w hclosed hsv hlt hfail hnone
    obtain ⟨rem', rfl⟩ : ∃ rem', rem = rem' + 1 :=
      ⟨rem - 1, by omega⟩
    rw [Nat.add_zero] at hnone
    have hew := esWrite_addOk o w p doc ed hclosed hparse
      (by rw [hsv]; exact hmarshal) hnone
    rw [retryLoop_ok_step o p rem' w _ p.length hew]
    exact ⟨rfl, rfl, rfl, rfl⟩
  | succ k ih =>
    intro rem w hclosed hsv hlt hfail hnone
    obtain ⟨rem', rfl⟩ : ∃ rem', rem = rem' + 1 :=
      ⟨rem - 1, by omega⟩
    have hrem' : rem' ≠ 0 := by omega
    obtain ⟨e, he⟩ : ∃ e, o.addErr w.addCalls = some e := by
      have := hfail 0 (Nat.succ_pos k)
      rw [Nat.add_zero] at this
      exact Option.isSome_iff_exists.mp this
    have hew := esWrite_addFail o w p doc ed e hclosed hparse
      (by rw [hsv]; exact hmarshal) he
    set w2 : ESWriter :=
      recordRetry (recordDrop { w with addCalls := w.addCalls + 1 }
        "elasticsearch" "indexer_add_error") "write_error" with hw2
    have hw2closed : w2.closed = false := by
      rw [hw2, recordRetry_closed, recordDrop_closed]; exact hclosed
    have hw2sv : w2.service = sv := by
      rw [hw2, recordRetry_service, recordDrop_service]; exact hsv
    have hw2add : w2.addCalls = w.addCalls + 1 := by
      rw [hw2, recordRetry_addCalls, recordDrop_addCalls]
    have hw2dlq : w2.dlq = w.dlq := by
      rw [hw2, recordRetry_dlq, recordDrop_dlq]
    have hw2queue : w2.queue = w.queue := by
      rw [hw2, recordRetry_queue, recordDrop_queue]
    have hfail2 : ∀ n < k, (o.addErr (w2.addCalls + n)).isSome := by
      intro n hn
      have := hfail (n + 1) (by omega)
      rw [hw2add]
      have harr : w.addCalls + (n + 1) = w.addCalls + 1 + n := by omega
      rw [harr] at this
      exact this
    have hnone2 : o.addErr (w2.addCalls + k) = none := by
      rw [hw2add]
      have harr : w.addCalls + 1 + k = w.addCalls + (k + 1) := by omega
      rw [harr]
      exact hnone
    have ihw := ih rem' w2 hw2closed hw2sv (by omega) hfail2 hnone2
    have hstep := retryLoop_error_step o p rem' w _ _ hew hrem'
    rw [← hw2] at hstep
    rw [hstep]
    refine ⟨ihw.1, by rw [ihw.2.1], ?_, ?_⟩
    · rw [ihw.2.2.1, hw2dlq]
    · rw [ihw.2.2.2, hw2queue]

theorem retryWrite_of_error (o : ESOracle) (maxR : ℕ) (w : ESWriter)
    (p : List Char) (e : String)
    (h : (retryLoop o p (maxR + 1) w).2.2 = .error e) :
    retryWrite o maxR w p
      = (recordDrop
          (writeToDLQ o.now (retryLoop o p (maxR + 1) w).1 p
            "retries_exhausted")
          "elasticsearch" "retries_exhausted",
         (retryLoop o p (maxR + 1) w).2.1, .error e) := by
  simp only [retryWrite, h]

theorem retryWrite_of_ok (o : ESOracle) (maxR : ℕ) (w : ESWriter)
    (p : List Char) (n : ℕ)
    (h : (retryLoop o p (maxR + 1) w).2.2 = .ok n) :
    retryWrite o maxR w p
      = ((retryLoop o p (maxR + 1) w).1,
         (retryLoop o p (maxR + 1) w).2.1, .ok n) := by
  simp only [retryWrite, h]

/-- C2: the retry wrapper's `Write`.  For a well-formed payload (parse and
re-marshal succeed) on an open writer: (a) if every `indexer.Add` attempt
is rejected, the wrapper performs exactly `Max + 1` inner `Write` calls
(at most `Max` retries after the first attempt), then appends the
original payload to the DLQ tagged `retries_exhausted` (when a DLQ file
is configured), records a drop metric (when metrics are enabled), and
returns the error of the last attempt; (b) if the first `k ≤ Max` attempts
fail and attempt `k` succeeds, the wrapper returns success after `k + 1`
inner calls and appends nothing to the DLQ. -/
theorem C2_retryWrite_spec (o : ESOracle) (maxR : ℕ) (w : ESWriter)
    (p : List Char) (doc : JsonDoc) (ed : List Char) (errs : ℕ → String)
    (hclosed : w.closed = false)
    (hparse : o.parse p = some doc)
    (hmarshal : o.marshal (setField doc "service" w.service) = some ed) :
    ((∀ n, o.addErr n = some (errs n)) →
        (retryWrite o maxR w p).2.1 = maxR + 1 ∧
        (retryWrite o maxR w p).2.2 = .error (errs (w.addCalls + maxR)) ∧
        (retryWrite o maxR w p).1.dlq
          = w.dlq
              ++ (if w.hasDlq then [⟨o.now, "retries_exhausted", p⟩] else []) ∧
        (w.metricsOn = true →
          ("elasticsearch", "retries_exhausted")
            ∈ (retryWrite o maxR w p).1.dropMetrics)) ∧
    (∀ k ≤ maxR, (∀ n < k, (o.addErr (w.addCalls + n)).isSome) →
        o.addErr (w.addCalls + k) = none →
        (retryWrite o maxR w p).2.2 = .ok p.length ∧
        (retryWrite o maxR w p).2.1 = k + 1 ∧
        (retryWrite o maxR w p).1.dlq = w.dlq) := by
  constructor
  · intro haddFail
    have hloop := retryLoop_allAddFail o p doc ed errs w.service hparse hmarshal
      haddFail maxR w hclosed rfl
    have hmatch := retryWrite_of_error o maxR w p _ hloop.2.1
    rw [hmatch]
    refine ⟨hloop.1, rfl, ?_, ?_⟩
    · rw [recordDrop_dlq, writeToDLQ_dlq, hloop.2.2.1, hloop.2.2.2.2.1]
    · intro hmOn
      rw [recordDrop_dropMetrics, writeToDLQ_metricsOn, hloop.2.2.2.2.2, hmOn]
      simp
  · intro k hk hfail hnone
    have hloop := retryLoop_firstSuccessAt o p doc ed w.service hparse hmarshal
      k (maxR + 1) w hclosed rfl (by omega) hfail hnone
    have hmatch := retryWrite_of_ok o maxR w p p.length hloop.1
    rw [hmatch]
    exact ⟨rfl, hloop.2.1, hloop.2.2.1⟩

/-- C2 witness: all attempts rejected by the indexer with `Max = 2`
(three inner calls, DLQ entry, last error returned), and, for the
accepting oracle, first-attempt success with no DLQ entry. -/
theorem C2_retryWrite_spec_witness :
    ((∀ n, addFailOracle.addErr n = some ((fun _ => "bulk indexer add rejected") n)) →
        (retryWrite addFailOracle 2 freshESWriter ['x']).2.1 = 2 + 1 ∧
        (retryWrite addFailOracle 2 freshESWriter ['x']).2.2
          = .error "bulk indexer add rejected" ∧
        (retryWrite addFailOracle 2 freshESWriter ['x']).1.dlq
          = freshESWriter.dlq
              ++ (if freshESWriter.hasDlq
                  then [⟨addFailOracle.now, "retries_exhausted", ['x']⟩] else []) ∧
        (freshESWriter.metricsOn = true →
          ("elasticsearch", "retries_exhausted")
            ∈ (retryWrite addFailOracle 2 freshESWriter ['x']).1.dropMetrics)) ∧
    (∀ k ≤ 2, (∀ n < k, (addFailOracle.addErr (freshESWriter.addCalls + n)).isSome) →
        addFailOracle.addErr (freshESWriter.addCalls + k) = none →
        (retryWrite addFailOracle 2 freshESWriter ['x']).2.2 = .ok ['x'].length ∧
        (retryWrite addFailOracle 2 freshESWriter ['x']).2.1 = k + 1 ∧
        (retryWrite addFailOracle 2 freshESWriter ['x']).1.dlq
          = freshESWriter.dlq) :=
  C2_retryWrite_spec addFailOracle 2 freshESWriter ['x'] [("msg", "hi")] ['e']
    (fun _ => "bulk indexer add rejected") rfl rfl rfl

/-! ## C6: JSON parse failures -/

/-- C6 (evaluation of the code at the failing input): for a payload that
does not parse as JSON, a single inner `Write` does append the raw bytes
to the DLQ with reason `json_parse_error` and return a local error — but
because that error is returned through the same channel as transient
enqueue errors, the retry wrapper re-invokes the inner `Write` for the
same input: with `Retry.Max = 3` the inner writer runs 4 times, the DLQ
receives four `json_parse_error` records followed by a
`retries_exhausted` record, and the wrapper returns the parse error,
contradicting the claim that such a failure is never retried. -/
theorem C6_parse_error_retried_by_wrapper :
    (esWrite parseFailOracle freshESWriter "not json".toList).2
      = .error "failed to parse log entry as JSON" ∧
    ((esWrite parseFailOracle freshESWriter "not json".toList).1.dlq.map
        DlqRecord.reason)
      = ["json_parse_error"] ∧
    (retryWrite parseFailOracle 3 freshESWriter "not json".toList).2.1 = 4 ∧
    (retryWrite parseFailOracle 3 freshESWriter "not json".toList).2.2
      = .error "failed to parse log entry as JSON" ∧
    ((retryWrite parseFailOracle 3 freshESWriter "not json".toList).1.dlq.map
        DlqRecord.reason)
      = ["json_parse_error", "json_parse_error", "json_parse_error",
         "json_parse_error", "retries_exhausted"] :=
  ⟨rfl, rfl, rfl, rfl, rfl⟩

/-! ## C4: `generateIndexName` -/

theorem replaceAllF_nil (pat rep : List Char) (fuel : ℕ) :
    replaceAllF pat rep fuel [] = [] := by
  cases fuel <;> rfl

theorem replaceAllF_succ_cons (pat rep : List Char) (fuel : ℕ) (c : Char)
    (rest : List Char) :
    replaceAllF pat rep (fuel + 1) (c :: rest)
      = if pat ≠ [] ∧ pat.isPrefixOf (c :: rest) then
          rep ++ replaceAllF pat rep fuel ((c :: rest).drop pat.length)
        else
          c :: replaceAllF pat rep fuel rest := rfl

theorem replaceAllF_fuel_eq (pat rep : List Char) :
    ∀ (fuel₁ : ℕ) (fuel₂ : ℕ) (l : List Char),
      l.length ≤ fuel₁ → l.length ≤ fuel₂ →
      replaceAllF pat rep fuel₁ l = replaceAllF pat rep fuel₂ l := by
  intro fuel₁
  induction fuel₁ with
  | zero =>
    intro fuel₂ l hl₁ _
    have : l = [] := List.length_eq_zero.mp (Nat.le_zero.mp hl₁)
    subst this
    rw [replaceAllF_nil, replaceAllF_nil]
  | succ fuel ih =>
    intro fuel₂ l hl₁ hl₂
    match l with
    | [] => rw [replaceAllF_nil, replaceAllF_nil]
    | c :: rest =>
      match fuel₂ with
      | 0 => simp at hl₂
      | f₂ + 1 =>
        rw [replaceAllF_succ_cons, replaceAllF_succ_cons]
        by_cases h : pat ≠ [] ∧ pat.isPrefixOf (c :: rest)
        · rw [if_pos h, if_pos h]
          have hp : 1 ≤ pat.length :=
            List.length_pos.mpr h.1
          have hd : ((c :: rest).drop pat.length).length
              = (c :: rest).length - pat.length := List.length_drop _ _
          congr 1
          apply ih
          · simp only [hd, List.length_cons] at *
            omega
          · simp only [hd, List.length_cons] at *
            omega
        · rw [if_neg h, if_neg h]
          congr 1
          apply ih
          · simp only [List.length_cons] at hl₁
            omega
          · simp only [List.length_cons] at hl₂
            omega

theorem listReplaceAll_nil (pat rep : List Char) :
    listReplaceAll pat rep [] = [] := rfl

theorem listReplaceAll_cons_not (pat rep : List Char) (c : Char)
    (l : List Char) (h : ¬ pat.isPrefixOf (c :: l)) :
    listReplaceAll pat rep (c :: l) = c :: listReplaceAll pat rep l := by
  unfold listReplaceAll
  rw [show (c :: l).length = l.length + 1 from rfl, replaceAllF_succ_cons,
    if_neg (by tauto)]

theorem listReplaceAll_hit (pat rep b : List Char) (hpat : pat ≠ []) :
    listReplaceAll pat rep (pat ++ b) = rep ++ listReplaceAll pat rep b := by
  obtain ⟨q, qs, rfl⟩ : ∃ q qs, pat = q :: qs := by
    cases pat with
    | nil => exact absurd rfl hpat
    | cons q qs => exact ⟨q, qs, rfl⟩
  unfold listReplaceAll
  have hlen : ((q :: qs) ++ b).length = (qs ++ b).length + 1 := by simp
  rw [List.cons_append, show (q :: (qs ++ b)).length = (qs ++ b).length + 1 from rfl,
    replaceAllF_succ_cons,
    if_pos ⟨hpat, List.isPrefixOf_iff_prefix.mpr (by
      rw [← List.cons_append]; exact List.prefix_append _ _)⟩]
  congr 1
  rw [show (q :: qs).length = qs.length + 1 from rfl] at *
  rw [show (q :: (qs ++ b)).drop (qs.length + 1) = b from by
    rw [← List.cons_append, show qs.length + 1 = (q :: qs).length from rfl]
    exact List.drop_left _ _]
  exact replaceAllF_fuel_eq _ _ _ _ b (by simp) le_rfl

theorem listReplaceAll_append_skip (pat rep a rest : List Char)
    (h : noStartIn pat a rest) :
    listReplaceAll pat rep (a ++ rest) = a ++ listReplaceAll pat rep rest := by
  induction a with
  | nil => simp
  | cons c a' ih =>
    have h0 : ¬ pat.isPrefixOf (c :: (a' ++ rest)) := by
      have := h 0 (by simp)
      simpa using this
    rw [List.cons_append, listReplaceAll_cons_not _ _ _ _ h0, ih ?_]
    · rw [List.cons_append]
    · intro i hi
      have := h (i + 1) (by simp only [List.length_cons]; omega)
      simpa [List.drop_succ_cons] using this

theorem listReplaceAll_id (pat rep s : List Char) (_hpat : pat ≠ [])
    (h : noOccur pat s) :
    listReplaceAll pat rep s = s := by
  induction s with
  | nil => rfl
  | cons c s' ih =>
    have h0 : ¬ pat.isPrefixOf (c :: s') := by
      have := h 0 (by simp)
      simpa using this
    rw [listReplaceAll_cons_not _ _ _ _ h0, ih ?_]
    intro i hi
    have := h (i + 1) (by simp only [List.length_cons]; omega)
    simpa [List.drop_succ_cons] using this

theorem listReplaceAll_single (pat rep a b : List Char) (hpat : pat ≠ [])
    (h1 : noStartIn pat a (pat ++ b)) (h2 : noOccur pat b) :
    listReplaceAll pat rep (a ++ (pat ++ b)) = a ++ (rep ++ b) := by
  rw [listReplaceAll_append_skip _ _ _ _ h1, listReplaceAll_hit _ _ _ hpat,
    listReplaceAll_id _ _ _ hpat h2]

/-- C4: `generateIndexName` is a pure function of the pattern, the
service name, and the current UTC date.  For every pattern decomposed as
`p1 <service> p2 %Y p3 %m p4 %d p5` in which each placeholder occurs
exactly at its marked position (the side conditions say that no
placeholder occurrence starts anywhere else, including inside the
substituted service name or date components), the result replaces
`<service>` exactly once by the service name and `%Y`/`%m`/`%d` by the
zero-padded year/month/day, and leaves every other substring (`p1`-`p5`)
unaltered. -/
theorem C4_generateIndexName_subst
    (p1 p2 p3 p4 p5 service : List Char) (y m d : ℕ)
    (h1 : noStartIn svcTok p1
      (svcTok ++ (p2 ++ (yTok ++ (p3 ++ (mTok ++ (p4 ++ (dTok ++ p5))))))))
    (h2 : noOccur svcTok
      (p2 ++ (yTok ++ (p3 ++ (mTok ++ (p4 ++ (dTok ++ p5)))))))
    (h3 : noStartIn yTok (p1 ++ (service ++ p2))
      (yTok ++ (p3 ++ (mTok ++ (p4 ++ (dTok ++ p5))))))
    (h4 : noOccur yTok (p3 ++ (mTok ++ (p4 ++ (dTok ++ p5)))))
    (h5 : noStartIn mTok (p1 ++ (service ++ (p2 ++ (padNum 4 y ++ p3))))
      (mTok ++ (p4 ++ (dTok ++ p5))))
    (h6 : noOccur mTok (p4 ++ (dTok ++ p5)))
    (h7 : noStartIn dTok
      (p1 ++ (service ++ (p2 ++ (padNum 4 y ++ (p3 ++ (padNum 2 m ++ p4))))))
      (dTok ++ p5))
    (h8 : noOccur dTok p5) :
    generateIndexName
        (p1 ++ (svcTok ++ (p2 ++ (yTok ++ (p3 ++ (mTok ++ (p4 ++ (dTok ++ p5))))))))
        service y m d
      = p1 ++ (service ++ (p2 ++ (padNum 4 y
          ++ (p3 ++ (padNum 2 m ++ (p4 ++ (padNum 2 d ++ p5))))))) := by
  have hsvc : svcTok ≠ [] := by decide
  have hy : yTok ≠ [] := by decide
  have hm : mTok ≠ [] := by decide
  have hd : dTok ≠ [] := by decide
  simp only [generateIndexName]
  rw [listReplaceAll_single svcTok service p1 _ hsvc h1 h2]
  rw [show p1 ++ (service ++ (p2 ++ (yTok ++ (p3 ++ (mTok ++ (p4 ++ (dTok ++ p5)))))))
      = (p1 ++ (service ++ p2)) ++ (yTok ++ (p3 ++ (mTok ++ (p4 ++ (dTok ++ p5)))))
      from by simp [List.append_assoc]]
  rw [listReplaceAll_single yTok (padNum 4 y) _ _ hy h3 h4]
  rw [show (p1 ++ (service ++ p2)) ++ (padNum 4 y ++ (p3 ++ (mTok ++ (p4 ++ (dTok ++ p5)))))
      = (p1 ++ (service ++ (p2 ++ (padNum 4 y ++ p3)))) ++ (mTok ++ (p4 ++ (dTok ++ p5)))
      from by simp [List.append_assoc]]
  rw [listReplaceAll_single mTok (padNum 2 m) _ _ hm h5 h6]
  rw [show (p1 ++ (service ++ (p2 ++ (padNum 4 y ++ p3)))) ++ (padNum 2 m ++ (p4 ++ (dTok ++ p5)))
      = (p1 ++ (service ++ (p2 ++ (padNum 4 y ++ (p3 ++ (padNum 2 m ++ p4)))))) ++ (dTok ++ p5)
      from by simp [List.append_assoc]]
  rw [listReplaceAll_single dTok (padNum 2 d) _ _ hd h7 h8]
  simp [List.append_assoc]

/-- C4 witness: the default pattern `<service>-%Y.%m.%d` with service
`app` on 2026-10-11 yields `app-2026.10.11`. -/
theorem C4_generateIndexName_subst_witness :
    generateIndexName "<service>-%Y.%m.%d".toList "app".toList 2026 10 11
      = "app-2026.10.11".toList := by
  have h := C4_generateIndexName_subst [] "-".toList ".".toList ".".toList []
    "app".toList 2026 10 11 (by decide) (by decide) (by decide) (by decide)
    (by decide) (by decide) (by decide) (by decide)
  have e1 : "<service>-%Y.%m.%d".toList
      = [] ++ (svcTok ++ ("-".toList ++ (yTok ++ (".".toList
          ++ (mTok ++ (".".toList ++ (dTok ++ ([] : List Char)))))))) := by
    decide
  rw [e1, h]
  decide

/-! ## C8: the DLQ line format -/

set_option maxHeartbeats 1600000 in
theorem jsonEscape_length_ge (s : List Char) :
    s.length ≤ (jsonEscape s).length := by
  induction s with
  | nil => simp [jsonEscape]
  | cons c rest ih =>
    have hc : 1 ≤ (jsonEscapeChar c).length := by
      unfold jsonEscapeChar
      split_ifs <;> simp
    simp only [jsonEscape, List.length_append, List.length_cons]
    omega

theorem hexVal_hexDigitChar (m : ℕ) (hm : m < 16) :
    hexVal (hexDigitChar m) = some m := by
  interval_cases m <;> decide

theorem hexDigitChar_ne_newline (m : ℕ) (hm : m < 16) :
    hexDigitChar m ≠ '\n' := by
  interval_cases m <;> decide

set_option maxHeartbeats 3200000 in
theorem parseStrF_escape (s : List Char) :
    ∀ (fuel : ℕ) (rest : List Char), s.length + 1 ≤ fuel →
      parseStrF fuel (jsonEscape s ++ ('"' :: rest)) = some (s, rest) := by
  induction s with
  | nil =>
    intro fuel rest hfuel
    match fuel with
    | f + 1 => rfl
  | cons c s' ih =>
    intro fuel rest hfuel
    match fuel with
    | f + 1 =>
    have hf : s'.length + 1 ≤ f := by
      simp only [List.length_cons] at hfuel
      omega
    by_cases hq : c = '"'
    · subst hq
      calc parseStrF (f + 1) (jsonEscape ('"' :: s') ++ ('"' :: rest))
          = (parseStrF f (jsonEscape s' ++ ('"' :: rest))).map
              (fun pr => ('"' :: pr.1, pr.2)) := rfl
        _ = some ('"' :: s', rest) := by rw [ih f rest hf]; rfl
    · by_cases hbs : c = '\\'
      · subst hbs
        calc parseStrF (f + 1) (jsonEscape ('\\' :: s') ++ ('"' :: rest))
            = (parseStrF f (jsonEscape s' ++ ('"' :: rest))).map
                (fun pr => ('\\' :: pr.1, pr.2)) := rfl
          _ = some ('\\' :: s', rest) := by rw [ih f rest hf]; rfl
      · by_cases hn : c = '\n'
        · subst hn
          calc parseStrF (f + 1) (jsonEscape ('\n' :: s') ++ ('"' :: rest))
              = (parseStrF f (jsonEscape s' ++ ('"' :: rest))).map
                  (fun pr => ('\n' :: pr.1, pr.2)) := rfl
            _ = some ('\n' :: s', rest) := by rw [ih f rest hf]; rfl
        · by_cases hr : c = '\r'
          · subst hr
            calc parseStrF (f + 1) (jsonEscape ('\r' :: s') ++ ('"' :: rest))
                = (parseStrF f (jsonEscape s' ++ ('"' :: rest))).map
                    (fun pr => ('\r' :: pr.1, pr.2)) := rfl
              _ = some ('\r' :: s', rest) := by rw [ih f rest hf]; rfl
          · by_cases ht : c = '\t'
            · subst ht
              calc parseStrF (f + 1) (jsonEscape ('\t' :: s') ++ ('"' :: rest))
                  = (parseStrF f (jsonEscape s' ++ ('"' :: rest))).map
                      (fun pr => ('\t' :: pr.1, pr.2)) := rfl
                _ = some ('\t' :: s', rest) := by rw [ih f rest hf]; rfl
            · by_cases hctrl : c.toNat < 32
              · have hesc : jsonEscapeChar c
                    = ['\\', 'u', '0', '0', hexDigitChar (c.toNat / 16),
                       hexDigitChar (c.toNat % 16)] := by
                  unfold jsonEscapeChar
                  rw [if_neg hq, if_neg hbs, if_neg hn, if_neg hr, if_neg ht,
                    if_pos hctrl]
                have hstep : parseStrF (f + 1)
                    (jsonEscape (c :: s') ++ ('"' :: rest))
                    = (match hexVal '0', hexVal '0',
                          hexVal (hexDigitChar (c.toNat / 16)),
                          hexVal (hexDigitChar (c.toNat % 16)) with
                       | some a, some b, some hc, some hd =>
                         (parseStrF f (jsonEscape s' ++ ('"' :: rest))).map
                           (fun pr =>
                             (Char.ofNat (4096 * a + 256 * b + 16 * hc + hd)
                               :: pr.1, pr.2))
                       | _, _, _, _ => none) := by
                  show parseStrF (f + 1)
                      ((jsonEscapeChar c ++ jsonEscape s') ++ ('"' :: rest)) = _
                  rw [hesc]
                  rfl
                rw [hstep, hexVal_hexDigitChar _ (by omega),
                  hexVal_hexDigitChar _ (by omega)]
                show (parseStrF f (jsonEscape s' ++ ('"' :: rest))).map _ = _
                rw [ih f rest hf]
                show some (Char.ofNat (4096 * 0 + 256 * 0 + 16 * (c.toNat / 16)
                  + c.toNat % 16) :: s', rest) = some (c :: s', rest)
                have harith : 4096 * 0 + 256 * 0 + 16 * (c.toNat / 16)
                    + c.toNat % 16 = c.toNat := by omega
                rw [harith, Char.ofNat_toNat]
              · by_cases hlt : c = '<'
                · subst hlt
                  calc parseStrF (f + 1) (jsonEscape ('<' :: s') ++ ('"' :: rest))
                      = (parseStrF f (jsonEscape s' ++ ('"' :: rest))).map
                          (fun pr =>
                            (Char.ofNat (4096 * 0 + 256 * 0 + 16 * 3 + 12)
                              :: pr.1, pr.2)) := rfl
                    _ = some ('<' :: s', rest) := by rw [ih f rest hf]; rfl
                · by_cases hgt : c = '>'
                  · subst hgt
                    calc parseStrF (f + 1) (jsonEscape ('>' :: s') ++ ('"' :: rest))
                        = (parseStrF f (jsonEscape s' ++ ('"' :: rest))).map
                            (fun pr =>
                              (Char.ofNat (4096 * 0 + 256 * 0 + 16 * 3 + 14)
                                :: pr.1, pr.2)) := rfl
                      _ = some ('>' :: s', rest) := by rw [ih f rest hf]; rfl
                  · by_cases hamp : c = '&'
                    · subst hamp
                      calc parseStrF (f + 1)
                            (jsonEscape ('&' :: s') ++ ('"' :: rest))
                          = (parseStrF f (jsonEscape s' ++ ('"' :: rest))).map
                              (fun pr =>
                                (Char.ofNat (4096 * 0 + 256 * 0 + 16 * 2 + 6)
                                  :: pr.1, pr.2)) := rfl
                        _ = some ('&' :: s', rest) := by rw [ih f rest hf]; rfl
                    · by_cases hls : c.toNat = 8232
                      · have hesc : jsonEscapeChar c
                            = ['\\', 'u', '2', '0', '2', '8'] := by
                          unfold jsonEscapeChar
                          rw [if_neg hq, if_neg hbs, if_neg hn, if_neg hr,
                            if_neg ht, if_neg (by omega), if_neg hlt,
                            if_neg hgt, if_neg hamp, if_pos hls]
                        have hstep : parseStrF (f + 1)
                            (jsonEscape (c :: s') ++ ('"' :: rest))
                            = (parseStrF f (jsonEscape s' ++ ('"' :: rest))).map
                                (fun pr =>
                                  (Char.ofNat (4096 * 2 + 256 * 0 + 16 * 2 + 8)
                                    :: pr.1, pr.2)) := by
                          show parseStrF (f + 1)
                              ((jsonEscapeChar c ++ jsonEscape s')
                                ++ ('"' :: rest)) = _
                          rw [hesc]
                          rfl
                        rw [hstep, ih f rest hf]
                        show some (Char.ofNat 8232 :: s', rest) = _
                        rw [show Char.ofNat 8232 = Char.ofNat c.toNat from by
                          rw [hls], Char.ofNat_toNat]
                      · by_cases hps : c.toNat = 8233
                        · have hesc : jsonEscapeChar c
                              = ['\\', 'u', '2', '0', '2', '9'] := by
                            unfold jsonEscapeChar
                            rw [if_neg hq, if_neg hbs, if_neg hn, if_neg hr,
                              if_neg ht, if_neg (by omega), if_neg hlt,
                              if_neg hgt, if_neg hamp, if_neg hls, if_pos hps]
                          have hstep : parseStrF (f + 1)
                              (jsonEscape (c :: s') ++ ('"' :: rest))
                              = (parseStrF f (jsonEscape s' ++ ('"' :: rest))).map
                                  (fun pr =>
                                    (Char.ofNat (4096 * 2 + 256 * 0 + 16 * 2 + 9)
                                      :: pr.1, pr.2)) := by
                            show parseStrF (f + 1)
                                ((jsonEscapeChar c ++ jsonEscape s')
                                  ++ ('"' :: rest)) = _
                            rw [hesc]
                            rfl
                          rw [hstep, ih f rest hf]
                          show some (Char.ofNat 8233 :: s', rest) = _
                          rw [show Char.ofNat 8233 = Char.ofNat c.toNat from by
                            rw [hps], Char.ofNat_toNat]
                        · have hesc : jsonEscapeChar c = [c] := by
                            unfold jsonEscapeChar
                            rw [if_neg hq, if_neg hbs, if_neg hn, if_neg hr,
                              if_neg ht, if_neg hctrl, if_neg hlt, if_neg hgt,
                              if_neg hamp, if_neg hls, if_neg hps]
                          have hstep : parseStrF (f + 1)
                              (jsonEscape (c :: s') ++ ('"' :: rest))
                              = parseStrF (f + 1)
                                  (c :: (jsonEscape s' ++ ('"' :: rest))) := by
                            show parseStrF (f + 1)
                                ((jsonEscapeChar c ++ jsonEscape s')
                                  ++ ('"' :: rest)) = _
                            rw [hesc]
                            rfl
                          rw [hstep]
                          show (if c = '"' then some ([], jsonEscape s' ++ ('"' :: rest))
                            else if c = '\\' then _
                            else if c.toNat < 32 then none
                            else (parseStrF f (jsonEscape s' ++ ('"' :: rest))).map
                              (fun pr => (c :: pr.1, pr.2))) = _
                          rw [if_neg hq, if_neg hbs, if_neg hctrl, ih f rest hf]
                          rfl

theorem parseJsonString_escape (s rest : List Char) :
    parseJsonString (jsonEscape s ++ ('"' :: rest)) = some (s, rest) := by
  unfold parseJsonString
  apply parseStrF_escape
  have := jsonEscape_length_ge s
  simp only [List.length_append, List.length_cons]
  omega

theorem expectPrefix_append (pat rest : List Char) :
    expectPrefix pat (pat ++ rest) = some rest := by
  unfold expectPrefix
  rw [if_pos (List.isPrefixOf_iff_prefix.mpr (List.prefix_append _ _)),
    List.drop_left]

set_option maxHeartbeats 1600000 in
theorem jsonEscapeChar_no_newline (c : Char) : '\n' ∉ jsonEscapeChar c := by
  unfold jsonEscapeChar
  split_ifs with h1 h2 h3 h4 h5 h6 h7 h8 h9 h10 h11 <;>
    first
    | decide
    | (intro hmem
       simp only [List.mem_cons, List.not_mem_nil, or_false] at hmem
       rcases hmem with h | h | h | h | h | h
       · exact absurd h (by decide)
       · exact absurd h (by decide)
       · exact absurd h (by decide)
       · exact absurd h (by decide)
       · exact absurd h.symm (hexDigitChar_ne_newline _ (by omega))
       · exact absurd h.symm (hexDigitChar_ne_newline _ (by omega)))
    | (intro hmem
       simp only [List.mem_cons, List.not_mem_nil, or_false] at hmem
       exact absurd hmem.symm h3)

theorem jsonEscape_no_newline (s : List Char) : '\n' ∉ jsonEscape s := by
  induction s with
  | nil => simp [jsonEscape]
  | cons c rest ih =>
    simp only [jsonEscape, List.mem_append]
    rintro (h | h)
    · exact jsonEscapeChar_no_newline c h
    · exact ih h

/-- C8: every line `writeToDLQ` appends is one JSON object with exactly
the three fields `original_log`, `reason`, `timestamp` (in Go's sorted
map-marshal order), each a JSON string; the strict reader of that shape
recovers the three values exactly, so the `original_log` field
reproduces the bytes handed to `writeToDLQ` verbatim (round trip); and
the line contains no newline character, so with the trailing `"\n"` the
file holds one record per line.  The timestamp string is the one the
source obtains from `time.Now().UTC().Format(time.RFC3339Nano)`,
threaded here as the `now` argument. -/
theorem C8_dlqLine_roundtrip (now reason original : List Char) :
    parseDlqLine (mkDlqLine now reason original)
      = some (original, reason, now) ∧
    '\n' ∉ mkDlqLine now reason original := by
  constructor
  · simp only [mkDlqLine, parseDlqLine, expectPrefix_append,
      parseJsonString_escape]
    rfl
  · intro hmem
    simp only [mkDlqLine, List.mem_append, List.mem_cons, List.not_mem_nil,
      or_false] at hmem
    rcases hmem with h | h | h | h | h | h | h | h | h | h
    all_goals
      first
      | exact absurd h (by decide)
      | exact jsonEscape_no_newline original h
      | exact jsonEscape_no_newline reason h
      | exact jsonEscape_no_newline now h

end Loggerkit
